import Mathlib

/-!
# Verification of the jsonrpc-async message-construction and transport layer

Shallow embedding of `jsonrpc_async/jsonrpc.py` (classes `Server`, `Method`,
`Request`).  Python dictionaries are modelled as association lists whose keys
are unique by construction (a Python `dict` cannot hold a duplicate key);
under that convention `dict.pop`, `dict.get` and the dict constructor have the
straightforward association-list meaning used below.  JSON values exchanged on
the wire are modelled by the inductive type `Json`.  The non-deterministic
draw `random.randint(1, sys.maxsize)` is modelled by passing the drawn value
as an explicit argument (`freshId`).  The asynchronous HTTP exchange performed
by aiohttp is modelled by its observable outcome: either a client-level
failure (`aiohttp.ClientError` / `asyncio.TimeoutError`) or a response
carrying a status, a reason phrase, and the value that `response.json()`
would produce if it were awaited; a function whose result does not depend on
that last field provably never reads or parses the response body.
-/

set_option autoImplicit false

namespace JsonrpcAsync

/-- A JSON value (the payloads handed to `json.dumps` and produced by
`response.json()`).  Numbers are modelled as integers — every id the library
produces is an integer, and no claim depends on float payloads. -/
inductive Json where
  | null : Json
  | bool (b : Bool) : Json
  | num (n : Int) : Json
  | str (s : String) : Json
  | arr (elems : List Json) : Json
  | obj (fields : List (String × Json)) : Json
deriving Repr

mutual

/-- Decidable structural equality on JSON values (Python `==`). -/
def Json.decEq : (a b : Json) → Decidable (a = b)
  | .null, .null => isTrue rfl
  | .null, .bool _ => isFalse (fun h => Json.noConfusion h)
  | .null, .num _ => isFalse (fun h => Json.noConfusion h)
  | .null, .str _ => isFalse (fun h => Json.noConfusion h)
  | .null, .arr _ => isFalse (fun h => Json.noConfusion h)
  | .null, .obj _ => isFalse (fun h => Json.noConfusion h)
  | .bool _, .null => isFalse (fun h => Json.noConfusion h)
  | .bool a, .bool b =>
    if h : a = b then isTrue (by rw [h]) else isFalse (fun hh => h (by injection hh))
  | .bool _, .num _ => isFalse (fun h => Json.noConfusion h)
  | .bool _, .str _ => isFalse (fun h => Json.noConfusion h)
  | .bool _, .arr _ => isFalse (fun h => Json.noConfusion h)
  | .bool _, .obj _ => isFalse (fun h => Json.noConfusion h)
  | .num _, .null => isFalse (fun h => Json.noConfusion h)
  | .num _, .bool _ => isFalse (fun h => Json.noConfusion h)
  | .num a, .num b =>
    if h : a = b then isTrue (by rw [h]) else isFalse (fun hh => h (by injection hh))
  | .num _, .str _ => isFalse (fun h => Json.noConfusion h)
  | .num _, .arr _ => isFalse (fun h => Json.noConfusion h)
  | .num _, .obj _ => isFalse (fun h => Json.noConfusion h)
  | .str _, .null => isFalse (fun h => Json.noConfusion h)
  | .str _, .bool _ => isFalse (fun h => Json.noConfusion h)
  | .str _, .num _ => isFalse (fun h => Json.noConfusion h)
  | .str a, .str b =>
    if h : a = b then isTrue (by rw [h]) else isFalse (fun hh => h (by injection hh))
  | .str _, .arr _ => isFalse (fun h => Json.noConfusion h)
  | .str _, .obj _ => isFalse (fun h => Json.noConfusion h)
  | .arr _, .null => isFalse (fun h => Json.noConfusion h)
  | .arr _, .bool _ => isFalse (fun h => Json.noConfusion h)
  | .arr _, .num _ => isFalse (fun h => Json.noConfusion h)
  | .arr _, .str _ => isFalse (fun h => Json.noConfusion h)
  | .arr a, .arr b =>
    match Json.decEqList a b with
    | isTrue h => isTrue (by rw [h])
    | isFalse h => isFalse (fun hh => h (by injection hh))
  | .arr _, .obj _ => isFalse (fun h => Json.noConfusion h)
  | .obj _, .null => isFalse (fun h => Json.noConfusion h)
  | .obj _, .bool _ => isFalse (fun h => Json.noConfusion h)
  | .obj _, .num _ => isFalse (fun h => Json.noConfusion h)
  | .obj _, .str _ => isFalse (fun h => Json.noConfusion h)
  | .obj _, .arr _ => isFalse (fun h => Json.noConfusion h)
  | .obj a, .obj b =>
    match Json.decEqFields a b with
    | isTrue h => isTrue (by rw [h])
    | isFalse h => isFalse (fun hh => h (by injection hh))

/-- Decidable equality of JSON arrays, elementwise. -/
def Json.decEqList : (a b : List Json) → Decidable (a = b)
  | [], [] => isTrue rfl
  | [], _ :: _ => isFalse (fun h => List.noConfusion h)
  | _ :: _, [] => isFalse (fun h => List.noConfusion h)
  | x :: xs, y :: ys =>
    match Json.decEq x y, Json.decEqList xs ys with
    | isTrue h1, isTrue h2 => isTrue (by rw [h1, h2])
    | isFalse h1, _ => isFalse (fun h => h1 (by injection h))
    | _, isFalse h2 => isFalse (fun h => h2 (by injection h))

/-- Decidable equality of JSON objects (ordered field lists), entrywise. -/
def Json.decEqFields : (a b : List (String × Json)) → Decidable (a = b)
  | [], [] => isTrue rfl
  | [], _ :: _ => isFalse (fun h => List.noConfusion h)
  | _ :: _, [] => isFalse (fun h => List.noConfusion h)
  | (k, v) :: xs, (l, w) :: ys =>
    if hk : k = l then
      match Json.decEq v w, Json.decEqFields xs ys with
      | isTrue h1, isTrue h2 => isTrue (by rw [hk, h1, h2])
      | isFalse h1, _ => isFalse (fun h => by
          injection h with h3 h4
          injection h3 with h5 h6
          exact h1 h6)
      | _, isFalse h2 => isFalse (fun h => by
          injection h with h3 h4
          exact h2 h4)
    else
      isFalse (fun h => by
        injection h with h3 h4
        injection h3 with h5 h6
        exact hk h5)

end

instance : DecidableEq Json := Json.decEq

/-- Python truthiness of a JSON-like value (`bool(x)`): `None`, `False`, `0`,
the empty string, the empty tuple/list and the empty dict are falsy. -/
def Json.truthy : Json → Bool
  | .null => false
  | .bool b => b
  | .num n => n != 0
  | .str s => decide (s ≠ "")
  | .arr elems => !elems.isEmpty
  | .obj fields => !fields.isEmpty

/-- Modelled from the spec: the external Message Model collaborator
(`jsonrpc_base`) defines the `Request` base class of §3 — a plain immutable
record of a dot-delimited `method` name, the `params` value (an array for a
positional call, an object for a keyword call, or absent), and the optional
correlation id (`msg_id`; absent marks a notification).  Its constructor is
modelled as verbatim field storage, per the §3 invariant that the wire
representation is a pure function of the stored fields. -/
structure Request where
  method : String
  params : Option Json
  msg_id : Option Int
deriving DecidableEq, Repr

/-- Modelled from the spec: `jsonrpc_base.Request.response_id`, the
correlation token used to decide whether a response is expected (§3: `absent`
marks the request as a notification). -/
def Request.response_id (r : Request) : Option Int := r.msg_id

/-- `Request.as_json_obj` from `jsonrpc_async/jsonrpc.py`: the raw JSON
message sent to the server.  The `params` / `id` keys are present exactly
when the corresponding field `is not None`. -/
def Request.as_json_obj (r : Request) : List (String × Json) :=
  [("jsonrpc", Json.str "2.0"), ("method", Json.str r.method)]
    ++ (match r.params with
        | some p => [("params", p)]
        | none => [])
    ++ (match r.msg_id with
        | some i => [("id", Json.num i)]
        | none => [])

/-- `Request.__getitem__` from the source: subscripting a request reads the
corresponding key of `as_json_obj()` (`none` models a Python `KeyError`). -/
def Request.getItem (r : Request) (key : String) : Option Json :=
  (r.as_json_obj).lookup key

/-- The context a `TransportError` is tagged with: the originating request
for a single call, or the string `"batch"` used by `batch_message`. -/
inductive ErrCtx where
  | req (r : Request) : ErrCtx
  | batch : ErrCtx
deriving DecidableEq, Repr

/-- The exceptions observable from the embedded code.  `attributeError`
models Python's builtin `AttributeError`; `protocolError` and
`transportError` model the `jsonrpc_base` classes of those names (the
optional wrapped low-level cause of a `TransportError` is not modelled — no
claim depends on it); `keyError` / `typeError` model the builtin exceptions
raised by failed dict subscripts and by iterating a non-array;
`responseError` stands for the response-level application errors raised by
the Message Model's response parser. -/
inductive PyErr where
  | attributeError (msg : String) : PyErr
  | protocolError (msg : String) : PyErr
  | transportError (msg : String) (ctx : ErrCtx) : PyErr
  | keyError : PyErr
  | typeError : PyErr
  | responseError (msg : String) : PyErr
deriving DecidableEq, Repr

/-- Whether an exception is of the `ProtocolError` class. -/
def PyErr.isProtocolError : PyErr → Bool
  | .protocolError _ => true
  | _ => false

/-- Whether an exception is of the builtin `AttributeError` class. -/
def PyErr.isAttributeError : PyErr → Bool
  | .attributeError _ => true
  | _ => false

/-- Python's `s.startswith("_")`: the first character of `s` is an
underscore (false for the empty string, as in Python). -/
def startsWithUnderscore (s : String) : Bool :=
  s.data.head? == some '_'

/-- `Method.__check_method_name` from the source: reject any method-name
segment that starts with `"_"` by raising `AttributeError`. -/
def checkMethodName (method_name : String) : Except PyErr Unit :=
  if startsWithUnderscore method_name then
    .error (.attributeError ("invalid attribute \x27" ++ method_name ++ "\x27"))
  else
    .ok ()

/-- The `Method` object of the source: a resolver node bound to the
accumulated dotted method name (the bound server and registration callback
carry no state relevant to any claim). -/
structure Method where
  method_name : String
deriving DecidableEq, Repr

/-- `Server.__getattr__` from the source (together with `Method.__init__`,
which validates the segment): attribute access on the server handle yields a
`Method` bound to that top-level name.  Pure: it takes no transport outcome,
so no network I/O can occur during resolution. -/
def Server.getattr (method_name : String) : Except PyErr Method :=
  (checkMethodName method_name).map fun _ => ⟨method_name⟩

/-- `Method.__getattr__` from the source: nested attribute access validates
the new segment and extends the dotted name.  Pure, like `Server.getattr`. -/
def Method.getattr (m : Method) (method_name : String) : Except PyErr Method :=
  (checkMethodName method_name).map fun _ => ⟨m.method_name ++ "." ++ method_name⟩

/-- One step of attribute-chain resolution: extend an already-resolved node
with one more segment (an already-raised `AttributeError` propagates). -/
def chainStep (acc : Except PyErr Method) (seg : String) : Except PyErr Method :=
  acc.bind (fun m => m.getattr seg)

/-- Resolution of a whole attribute chain `server.first.rest₀.rest₁...`:
one `Server.getattr` followed by `Method.getattr` for each nested segment. -/
def resolveChain (first : String) (rest : List String) : Except PyErr Method :=
  rest.foldl chainStep (Server.getattr first)

/-- `Method.raw` from the source: build the `Request` for one call.
`args` are the positional arguments, `kwargs` the keyword arguments as the
caller wrote them (so a `_notification` entry, if any, is still present:
the function pops it, exactly as `kwargs.pop('_notification', False)` does),
and `freshId` is the value drawn by `random.randint(1, sys.maxsize)`. -/
def Method.raw (m : Method) (args : List Json) (kwargs0 : List (String × Json))
    (freshId : Int) : Except PyErr Request :=
  let notif := ((kwargs0.lookup "_notification").getD (Json.bool false)).truthy
  let kwargs := kwargs0.filter (fun p => decide (p.1 ≠ "_notification"))
  let msg_id : Option Int := if notif then none else some freshId
  if args ≠ [] ∧ kwargs ≠ [] then
    .error (.protocolError "JSON-RPC spec forbids mixing arguments and keyword arguments")
  else
    let params : Json :=
      match args with
      | [Json.obj fields] => if fields.isEmpty then Json.obj kwargs else Json.obj fields
      | _ => if args.isEmpty then Json.obj kwargs else Json.arr args
    .ok ⟨m.method_name, some params, msg_id⟩

/-- The observable outcome of `await self._request(...)`: status line plus
the value `await response.json()` would yield (`Except.error` modelling a
`ValueError` from deserialization). -/
structure HttpResponse where
  status : Nat
  reason : String
  jsonBody : Except String Json
deriving Repr

/-- Modelled from the spec: the Message Model's response parser
(`jsonrpc_base.Request.parse_response`, §4.3 step 6) — validate the parsed
structure against the request's id and the JSON-RPC response shape, and
return the call's result or raise the appropriate response-level error. -/
def Request.parse_response (r : Request) (data : Json) : Except PyErr Json :=
  match data with
  | .obj fields =>
    if fields.lookup "id" = r.msg_id.map Json.num then
      match fields.lookup "error" with
      | some _ => .error (.responseError "server returned an error object")
      | none =>
        match fields.lookup "result" with
        | some v => .ok v
        | none => .error (.responseError "response lacks a result")
    else .error (.responseError "response id does not match request id")
  | _ => .error (.responseError "response is not a JSON object")

/-- `Server.send_message` from the source: one HTTP exchange for one
request.  `outcome` is the result of the `await self._request(...)` call
(`.error` models an `aiohttp.ClientError` / `asyncio.TimeoutError`). -/
def Server.send_message (message : Request) (outcome : Except String HttpResponse) :
    Except PyErr (Option Json) :=
  match outcome with
  | .error _ => .error (.transportError "Transport Error" (.req message))
  | .ok response =>
    if response.status ≠ 200 then
      .error (.transportError ("HTTP " ++ toString response.status ++ " " ++ response.reason)
        (.req message))
    else if message.response_id = none then
      .ok none
    else
      match response.jsonBody with
      | .error _ => .error (.transportError "Cannot deserialize response body" (.req message))
      | .ok response_data => (message.parse_response response_data).map some

/-- `Method.__call__` from the source: build the request with `raw` and hand
it to `Server.send_message`.  A construction failure short-circuits before
the transport outcome is ever consulted. -/
def Method.call (m : Method) (args : List Json) (kwargs : List (String × Json))
    (freshId : Int) (outcome : Except String HttpResponse) : Except PyErr (Option Json) :=
  (m.raw args kwargs freshId).bind (fun req => Server.send_message req outcome)

/-- `d[k] = v` on a Python dict: overwrite in place if the key is present,
append otherwise. -/
def dictInsert {α β : Type} [DecidableEq α] (d : List (α × β)) (k : α) (v : β) :
    List (α × β) :=
  if (d.lookup k).isSome then d.map (fun p => if p.1 = k then (k, v) else p)
  else d ++ [(k, v)]

/-- The `headers` preparation in `Server.__init__`:
`headers['Content-Type'] = headers.get('Content-Type', 'application/json')`
and likewise for `Accept` — i.e. each required header is set only when the
caller did not already supply that key. -/
def Server.init_headers (headers : List (String × String)) : List (String × String) :=
  let h1 :=
    match headers.lookup "Content-Type" with
    | some _ => headers
    | none => headers ++ [("Content-Type", "application/json")]
  match h1.lookup "Accept" with
  | some _ => h1
  | none => h1 ++ [("Accept", "application/json-rpc")]

/-- The `id` of a request as it appears on the wire, defaulting to `null`
when the request is a notification (only used under hypotheses that rule the
default out). -/
def Request.wireId (r : Request) : Json :=
  (r.msg_id.map Json.num).getD Json.null

/-- The `id` field of a JSON value, when it is an object that has one. -/
def Json.idField : Json → Option Json
  | .obj fields => fields.lookup "id"
  | _ => none

/-- The `id_msg` comprehension of `Server.batch_message`:
`{m['id']: k for k, m in kw.items()}`, read left to right with dict
overwrite semantics; a request whose wire form lacks an `id` key raises
`KeyError`. -/
def Server.batch_ids (kw : List (String × Request)) : Except PyErr (List (Json × String)) :=
  kw.foldlM (fun d p =>
    match p.2.getItem "id" with
    | none => .error .keyError
    | some i => .ok (dictInsert d i p.1)) []

/-- One step of the `r_data` comprehension of `Server.batch_message`:
`{resp['id']: resp for resp in response_data}` — subscripting a non-object
raises `TypeError`, a missing `id` key raises `KeyError`. -/
def Server.collect_resp (d : List (Json × Json)) (resp : Json) :
    Except PyErr (List (Json × Json)) :=
  match resp with
  | .obj fields =>
    match fields.lookup "id" with
    | none => .error PyErr.keyError
    | some i => .ok (dictInsert d i resp)
  | _ => .error PyErr.typeError

/-- One step of the final comprehension of `Server.batch_message`:
`{id_msg[_id]: kw[id_msg[_id]].parse_response(resp) for _id, resp in
r_data.items()}` — route one keyed response element to the parser of the
request whose id it carries. -/
def Server.route_one (kw : List (String × Request)) (id_msg : List (Json × String))
    (acc : List (String × Json)) (p : Json × Json) : Except PyErr (List (String × Json)) :=
  match id_msg.lookup p.1 with
  | none => .error PyErr.keyError
  | some label =>
    match kw.lookup label with
    | none => .error PyErr.keyError
    | some req => (req.parse_response p.2).map (fun v => dictInsert acc label v)

/-- The entry that `Server.route_one` appends for one keyed response element
when all three lookups succeed: the label owning the element's id, paired
with the parsed result (the `("", null)` defaults are never produced under
the success hypotheses of the theorems that use this). -/
def routeEntry (kw : List (String × Request)) (id_msg : List (Json × String))
    (q : Json × Json) : String × Json :=
  match id_msg.lookup q.1 with
  | none => ("", Json.null)
  | some label =>
    match kw.lookup label with
    | none => ("", Json.null)
    | some req =>
      match req.parse_response q.2 with
      | .error _ => ("", Json.null)
      | .ok v => (label, v)

/-- `Server.batch_message` from the source: serialize all requests as one
JSON array, build the id-to-label lookup, perform one HTTP exchange, key the
response array by each element's `id`, and route every element to the
originating request's response parser, returning a label-to-result dict. -/
def Server.batch_message (kw : List (String × Request))
    (outcome : Except String HttpResponse) : Except PyErr (List (String × Json)) := do
  let id_msg ← Server.batch_ids kw
  match outcome with
  | .error _ => .error (.transportError "Transport Error" .batch)
  | .ok response =>
    if response.status ≠ 200 then
      .error (.transportError ("HTTP " ++ toString response.status ++ " " ++ response.reason)
        .batch)
    else
      match response.jsonBody with
      | .error _ => .error (.transportError "Cannot deserialize response body" .batch)
      | .ok (.arr elems) =>
        let r_data ← elems.foldlM Server.collect_resp ([] : List (Json × Json))
        r_data.foldlM (Server.route_one kw id_msg) []
      | .ok _ => .error PyErr.typeError

/-! ## General association-list helpers -/

theorem lookup_append {α β : Type} [BEq α] (l1 l2 : List (α × β)) (k : α) :
    (l1 ++ l2).lookup k = ((l1.lookup k).or (l2.lookup k)) := by
  induction l1 with
  | nil => simp [List.lookup]
  | cons p l ih =>
    cases p with
    | mk a b =>
      cases h : k == a <;> simp [List.lookup, h, ih]

theorem lookup_eq_none_of_not_mem {α β : Type} [BEq α] [LawfulBEq α]
    (l : List (α × β)) (k : α) (h : k ∉ l.map Prod.fst) : l.lookup k = none := by
  induction l with
  | nil => rfl
  | cons p l ih =>
    cases p with
    | mk a b =>
      simp only [List.map_cons, List.mem_cons, not_or] at h
      simp [List.lookup, beq_false_of_ne h.1, ih h.2]

theorem mem_of_lookup_eq_some {α β : Type} [BEq α] [LawfulBEq α]
    {l : List (α × β)} {k : α} {v : β} (h : l.lookup k = some v) : (k, v) ∈ l := by
  induction l with
  | nil => simp [List.lookup] at h
  | cons p l ih =>
    cases p with
    | mk a b =>
      by_cases hk : k = a
      · subst hk
        simp [List.lookup] at h
        simp [h]
      · simp [List.lookup, beq_false_of_ne hk] at h
        exact List.mem_cons_of_mem _ (ih h)

theorem lookup_eq_some_of_mem_nodup {α β : Type} [BEq α] [LawfulBEq α]
    {l : List (α × β)} {k : α} {v : β}
    (hnd : (l.map Prod.fst).Nodup) (hmem : (k, v) ∈ l) : l.lookup k = some v := by
  induction l with
  | nil => simp at hmem
  | cons p l ih =>
    cases p with
    | mk a b =>
      simp only [List.map_cons, List.nodup_cons] at hnd
      rcases List.mem_cons.mp hmem with h | h
      · cases h
        simp [List.lookup]
      · have hka : k ≠ a := by
          intro he
          subst he
          exact hnd.1 (List.mem_map.mpr ⟨(k, v), h, rfl⟩)
        simp [List.lookup, beq_false_of_ne hka, ih hnd.2 h]

theorem dictInsert_of_not_mem {α β : Type} [DecidableEq α]
    (d : List (α × β)) (k : α) (v : β) (h : k ∉ d.map Prod.fst) :
    dictInsert d k v = d ++ [(k, v)] := by
  have hl : d.lookup k = none := lookup_eq_none_of_not_mem d k h
  simp [dictInsert, hl]

theorem dictInsert_keys {α β : Type} [DecidableEq α]
    (d : List (α × β)) (k : α) (v : β) :
    ∀ p ∈ dictInsert d k v, p.1 = k ∨ p.1 ∈ d.map Prod.fst := by
  intro p hp
  unfold dictInsert at hp
  split at hp
  · rcases List.mem_map.mp hp with ⟨q, hq, hpq⟩
    by_cases hqk : q.1 = k
    · simp [hqk] at hpq
      left
      rw [← hpq]
    · simp [hqk] at hpq
      right
      rw [← hpq]
      exact List.mem_map.mpr ⟨q, hq, rfl⟩
  · rcases List.mem_append.mp hp with h | h
    · right
      exact List.mem_map.mpr ⟨p, h, rfl⟩
    · left
      simp at h
      rw [h]

/-! ## Resolution of method names (claim C1) -/

theorem checkMethodName_private {s : String} (h : startsWithUnderscore s = true) :
    checkMethodName s
      = .error (.attributeError ("invalid attribute \x27" ++ s ++ "\x27")) := by
  simp [checkMethodName, h]

theorem checkMethodName_ok {s : String} (h : startsWithUnderscore s = false) :
    checkMethodName s = .ok () := by
  simp [checkMethodName, h]

theorem methodGetattr_error_isAttr {m : Method} {seg : String} {e : PyErr}
    (h : m.getattr seg = .error e) : e.isAttributeError = true := by
  unfold Method.getattr checkMethodName at h
  split at h
  · simp [Except.map] at h
    rw [← h]
    rfl
  · simp [Except.map] at h

theorem serverGetattr_error_isAttr {seg : String} {e : PyErr}
    (h : Server.getattr seg = .error e) : e.isAttributeError = true := by
  unfold Server.getattr checkMethodName at h
  split at h
  · simp [Except.map] at h
    rw [← h]
    rfl
  · simp [Except.map] at h

theorem chainStep_error (e : PyErr) (seg : String) : chainStep (.error e) seg = .error e := rfl

theorem chainStep_ok (m : Method) (seg : String) : chainStep (.ok m) seg = m.getattr seg := rfl

theorem chain_foldl_error (rest : List String) (e : PyErr) :
    rest.foldl chainStep (.error e) = .error e := by
  induction rest with
  | nil => rfl
  | cons s rest ih => simpa [chainStep_error] using ih

theorem chain_foldl_error_isAttr (rest : List String) :
    ∀ (acc : Except PyErr Method),
      (∀ e, acc = .error e → e.isAttributeError = true) →
      ∀ e, rest.foldl chainStep acc = .error e → e.isAttributeError = true := by
  induction rest with
  | nil => intro acc hacc e h; exact hacc e h
  | cons s rest ih =>
    intro acc hacc e h
    simp only [List.foldl_cons] at h
    refine ih _ ?_ e h
    intro e' he'
    cases acc with
    | error e0 =>
      rw [chainStep_error] at he'
      exact hacc e' (by rw [← he'])
    | ok m =>
      rw [chainStep_ok] at he'
      exact methodGetattr_error_isAttr he'

theorem chain_foldl_private (rest : List String) :
    ∀ (acc : Except PyErr Method), (∃ s ∈ rest, startsWithUnderscore s = true) →
      ∃ e, rest.foldl chainStep acc = .error e := by
  induction rest with
  | nil => intro acc h; simp at h
  | cons s rest ih =>
    intro acc h
    simp only [List.foldl_cons]
    by_cases hs : startsWithUnderscore s = true
    · cases acc with
      | error e0 =>
        exact ⟨e0, by rw [chainStep_error]; exact chain_foldl_error rest e0⟩
      | ok m =>
        refine ⟨.attributeError ("invalid attribute \x27" ++ s ++ "\x27"), ?_⟩
        have hg : m.getattr s
            = .error (.attributeError ("invalid attribute \x27" ++ s ++ "\x27")) := by
          simp [Method.getattr, checkMethodName_private hs, Except.map]
        rw [chainStep_ok, hg]
        exact chain_foldl_error rest _
    · rcases h with ⟨t, ht, hpt⟩
      rcases List.mem_cons.mp ht with h | h
      · exact absurd (h ▸ hpt) hs
      · exact ih _ ⟨t, h, hpt⟩

/-- C1 counterexample: resolving the private name `_foo` on the server
handle fails with an `AttributeError`, which is not a `ProtocolError`-class
failure — so the claim that a `ProtocolError`-class failure is raised is
false as stated. -/
theorem claim_C1_counterexample :
    resolveChain "_foo" [] = .error (.attributeError "invalid attribute \x27_foo\x27")
      ∧ (PyErr.attributeError "invalid attribute \x27_foo\x27").isProtocolError = false :=
  ⟨rfl, rfl⟩

/-- C1 (amended): for every method-name segment that starts with the private
marker `_`, at the top level or at any nesting depth, attribute resolution on
the server handle fails synchronously with an `AttributeError` (not a
`ProtocolError`-class failure), before any network I/O occurs — resolution is
a pure function that takes no transport outcome. -/
theorem claim_C1_private_resolution_attribute_error (first : String) (rest : List String)
    (h : startsWithUnderscore first = true ∨ ∃ s ∈ rest, startsWithUnderscore s = true) :
    ∃ msg, resolveChain first rest = .error (.attributeError msg) := by
  have key : ∃ e, resolveChain first rest = .error e := by
    rcases h with h | h
    · unfold resolveChain
      have hg : Server.getattr first
          = .error (.attributeError ("invalid attribute \x27" ++ first ++ "\x27")) := by
        simp [Server.getattr, checkMethodName_private h, Except.map]
      rw [hg]
      exact ⟨_, chain_foldl_error rest _⟩
    · exact chain_foldl_private rest _ h
  rcases key with ⟨e, he⟩
  have hattr : e.isAttributeError = true := by
    unfold resolveChain at he
    refine chain_foldl_error_isAttr rest (Server.getattr first) ?_ e he
    intro e' he'
    exact serverGetattr_error_isAttr he'
  cases e with
  | attributeError msg => exact ⟨msg, he⟩
  | protocolError msg => simp [PyErr.isAttributeError] at hattr
  | transportError msg ctx => simp [PyErr.isAttributeError] at hattr
  | keyError => simp [PyErr.isAttributeError] at hattr
  | typeError => simp [PyErr.isAttributeError] at hattr
  | responseError msg => simp [PyErr.isAttributeError] at hattr

/-- C1 witness: the nested private access `server.foo.bar._baz` fails with an
`AttributeError`. -/
theorem claim_C1_witness :
    ∃ msg, resolveChain "foo" ["bar", "_baz"] = .error (.attributeError msg) :=
  claim_C1_private_resolution_attribute_error "foo" ["bar", "_baz"]
    (Or.inr ⟨"_baz", by simp, by decide⟩)

/-! ## Header preparation (claim C3) -/

/-- C3: every HTTP POST made by a `Server` carries
`Content-Type: application/json` and `Accept: application/json-rpc` as
defaults, but a caller-supplied value for either key wins for that key, and
every other caller-supplied header passes through unchanged (both its lookup
value and its presence as a pair). -/
theorem claim_C3_headers_caller_precedence (headers : List (String × String)) :
    ((Server.init_headers headers).lookup "Content-Type"
        = some ((headers.lookup "Content-Type").getD "application/json"))
  ∧ ((Server.init_headers headers).lookup "Accept"
        = some ((headers.lookup "Accept").getD "application/json-rpc"))
  ∧ (∀ k : String, k ≠ "Content-Type" → k ≠ "Accept" →
        (Server.init_headers headers).lookup k = headers.lookup k)
  ∧ (∀ p ∈ headers, p ∈ Server.init_headers headers) := by
  have hctSingle : ∀ k : String, k ≠ "Content-Type" →
      (List.lookup k [("Content-Type", "application/json")] : Option String) = none := by
    intro k hk
    simp [List.lookup, beq_false_of_ne hk]
  have hacSingle : ∀ k : String, k ≠ "Accept" →
      (List.lookup k [("Accept", "application/json-rpc")] : Option String) = none := by
    intro k hk
    simp [List.lookup, beq_false_of_ne hk]
  unfold Server.init_headers
  cases hct : headers.lookup "Content-Type" with
  | some v =>
    cases hac : headers.lookup "Accept" with
    | some w =>
      simp [hct, hac]
    | none =>
      simp only [hct, hac]
      refine ⟨?_, ?_, ?_, ?_⟩
      · rw [lookup_append, hct]
        rfl
      · rw [lookup_append, hac]
        rfl
      · intro k hk1 hk2
        rw [lookup_append, hacSingle k hk2, Option.or_none]
      · intro p hp
        exact List.mem_append_left _ hp
  | none =>
    cases hac : headers.lookup "Accept" with
    | some w =>
      have hac2 : (headers ++ [("Content-Type", "application/json")]).lookup "Accept"
          = some w := by
        rw [lookup_append, hac]
        rfl
      simp only [hct, hac2]
      refine ⟨?_, ?_, ?_, ?_⟩
      · rw [lookup_append, hct]
        rfl
      · rfl
      · intro k hk1 hk2
        rw [lookup_append, hctSingle k hk1, Option.or_none]
      · intro p hp
        exact List.mem_append_left _ hp
    | none =>
      have hac2 : (headers ++ [("Content-Type", "application/json")]).lookup "Accept"
          = none := by
        rw [lookup_append, hac, hctSingle "Accept" (by decide)]
        rfl
      simp only [hct, hac2]
      refine ⟨?_, ?_, ?_, ?_⟩
      · rw [lookup_append, lookup_append, hct]
        simp [List.lookup]
      · rw [lookup_append, hac2]
        simp [List.lookup]
      · intro k hk1 hk2
        rw [lookup_append, lookup_append, hctSingle k hk1, hacSingle k hk2,
          Option.or_none, Option.or_none]
      · intro p hp
        exact List.mem_append_left _ (List.mem_append_left _ hp)

/-- C3 witness: with caller headers `{Accept: text/plain, X-Custom: 1}`, the
prepared headers keep the caller's `Accept`, default the `Content-Type`, and
pass `X-Custom` through. -/
theorem claim_C3_witness :
    ((Server.init_headers [("Accept", "text/plain"), ("X-Custom", "1")]).lookup "Content-Type"
        = some "application/json")
  ∧ ((Server.init_headers [("Accept", "text/plain"), ("X-Custom", "1")]).lookup "Accept"
        = some "text/plain")
  ∧ ((Server.init_headers [("Accept", "text/plain"), ("X-Custom", "1")]).lookup "X-Custom"
        = some "1") := by
  have h := claim_C3_headers_caller_precedence [("Accept", "text/plain"), ("X-Custom", "1")]
  exact ⟨h.1, h.2.1, (h.2.2.1 "X-Custom" (by decide) (by decide)).trans (by rfl)⟩

/-! ## Request construction (claims C5, C6) -/

/-- C5: a call that supplies at least one positional argument and at least
one keyword argument (other than the reserved `_notification` flag, which
`raw` pops before the check) fails with `ProtocolError` carrying exactly the
message `"JSON-RPC spec forbids mixing arguments and keyword arguments"`,
whatever transport outcome would have awaited — so no network call is
attempted. -/
theorem claim_C5_mixing_args_protocol_error (m : Method) (args : List Json)
    (kwargs : List (String × Json)) (freshId : Int)
    (h1 : args ≠ [])
    (h2 : ∃ p ∈ kwargs, p.1 ≠ "_notification") :
    ∀ outcome : Except String HttpResponse,
      m.call args kwargs freshId outcome
        = .error (.protocolError
            "JSON-RPC spec forbids mixing arguments and keyword arguments") := by
  intro outcome
  have hkw : kwargs.filter (fun p => decide (p.1 ≠ "_notification")) ≠ [] := by
    rcases h2 with ⟨p, hp, hne⟩
    exact List.ne_nil_of_mem (List.mem_filter.mpr ⟨hp, by simpa using hne⟩)
  have hraw : m.raw args kwargs freshId
      = .error (.protocolError
          "JSON-RPC spec forbids mixing arguments and keyword arguments") := by
    unfold Method.raw
    rw [if_pos ⟨h1, hkw⟩]
  unfold Method.call
  rw [hraw]
  rfl

/-- C5 witness: `testmethod(1, a=1)` fails with the mixing `ProtocolError`
even though the server would have answered 200. -/
theorem claim_C5_witness :
    Method.call ⟨"testmethod"⟩ [Json.num 1] [("a", Json.num 1)] 7
        (.ok ⟨200, "OK", .ok (Json.obj [])⟩)
      = .error (.protocolError
          "JSON-RPC spec forbids mixing arguments and keyword arguments") :=
  claim_C5_mixing_args_protocol_error ⟨"testmethod"⟩ [Json.num 1] [("a", Json.num 1)] 7
    (by decide) ⟨("a", Json.num 1), by simp, by decide⟩
    (.ok ⟨200, "OK", .ok (Json.obj [])⟩)

/-- C6: a call with exactly one positional argument that is a mapping and no
keyword arguments produces a `Request` whose `params` is that mapping itself
(the full params object), not a one-element array wrapping it. -/
theorem claim_C6_single_mapping_promoted (m : Method) (fields : List (String × Json))
    (freshId : Int) :
    m.raw [Json.obj fields] [] freshId
      = .ok ⟨m.method_name, some (Json.obj fields), some freshId⟩ := by
  cases fields with
  | nil => rfl
  | cons f fs => rfl

/-- `Except.ok a >>= f` computes to `f a` (used to reduce the monadic
`batch_message` once `batch_ids` is known to succeed). -/
theorem except_bind_ok {ε α β : Type} (a : α) (f : α → Except ε β) :
    ((Except.ok a : Except ε α) >>= f) = f a := rfl

/-- `Except.error e >>= f` propagates the error. -/
theorem except_bind_error {ε α β : Type} (e : ε) (f : α → Except ε β) :
    ((Except.error e : Except ε α) >>= f) = Except.error e := rfl

/-! ## Status handling in the transport (claims C7, C9) -/

/-- C7: a single-call HTTP exchange that completes with a non-2xx status
makes `send_message` raise a `TransportError` whose message is the formatted
`"HTTP <status> <reason>"` and which carries the originating request — for
every response body, valid JSON or not; at status 404 the message starts
with `"HTTP 404"`. -/
theorem claim_C7_non2xx_transport_error (req : Request) (status : Nat) (reason : String)
    (body : Except String Json)
    (h : status < 200 ∨ 300 ≤ status) :
    (Server.send_message req (.ok ⟨status, reason, body⟩)
        = .error (.transportError ("HTTP " ++ toString status ++ " " ++ reason) (.req req)))
  ∧ (status = 404 →
      ∃ rest, ("HTTP " ++ toString status ++ " " ++ reason) = "HTTP 404" ++ rest) := by
  constructor
  · have hne : status ≠ 200 := by omega
    simp only [Server.send_message]
    rw [if_pos hne]
  · intro h404
    subst h404
    refine ⟨" " ++ reason, ?_⟩
    rw [show (toString (404 : Nat) : String) = "404" from rfl]
    rw [String.append_assoc]
    rfl

/-- C7 witness: a 404 response with a valid-JSON body yields the
`TransportError` with message `"HTTP 404 Not Found"` carrying the request. -/
theorem claim_C7_witness :
    (Server.send_message ⟨"my_method", none, some 1⟩
        (.ok ⟨404, "Not Found", .ok (Json.obj [])⟩)
      = .error (.transportError ("HTTP " ++ toString 404 ++ " " ++ "Not Found")
          (.req ⟨"my_method", none, some 1⟩)))
  ∧ (∃ rest, ("HTTP " ++ toString 404 ++ " " ++ "Not Found") = "HTTP 404" ++ rest) :=
  ⟨(claim_C7_non2xx_transport_error ⟨"my_method", none, some 1⟩ 404 "Not Found"
      (.ok (Json.obj [])) (by decide)).1,
   (claim_C7_non2xx_transport_error ⟨"my_method", none, some 1⟩ 404 "Not Found"
      (.ok (Json.obj [])) (by decide)).2 rfl⟩

/-- C9: `send_message` and `batch_message` accept only HTTP status exactly
200 as success: every other status — including 2xx codes such as 201 or 204
— raises `TransportError`, and the body is never parsed (the result is the
same for every possible body). -/
theorem claim_C9_only_200_is_success (status : Nat) (reason : String)
    (h : status ≠ 200) :
    (∀ (req : Request) (body : Except String Json),
        Server.send_message req (.ok ⟨status, reason, body⟩)
          = .error (.transportError ("HTTP " ++ toString status ++ " " ++ reason) (.req req)))
  ∧ (∀ (kw : List (String × Request)) (id_msg : List (Json × String))
        (body : Except String Json),
        Server.batch_ids kw = .ok id_msg →
        Server.batch_message kw (.ok ⟨status, reason, body⟩)
          = .error (.transportError ("HTTP " ++ toString status ++ " " ++ reason) .batch)) := by
  constructor
  · intro req body
    simp only [Server.send_message]
    rw [if_pos h]
  · intro kw id_msg body hids
    simp only [Server.batch_message, hids, except_bind_ok]
    rw [if_pos h]

/-- C9 witness: a 204 No Content response (a 2xx success code other than
200) raises `TransportError` for both a single call and a batch. -/
theorem claim_C9_witness :
    (Server.send_message ⟨"m", none, some 1⟩ (.ok ⟨204, "No Content", .ok (Json.obj [])⟩)
        = .error (.transportError ("HTTP " ++ toString 204 ++ " " ++ "No Content")
            (.req ⟨"m", none, some 1⟩)))
  ∧ (Server.batch_message [("a", ⟨"m", none, some 1⟩)]
        (.ok ⟨204, "No Content", .ok (Json.obj [])⟩)
      = .error (.transportError ("HTTP " ++ toString 204 ++ " " ++ "No Content") .batch)) :=
  ⟨(claim_C9_only_200_is_success 204 "No Content" (by decide)).1
      ⟨"m", none, some 1⟩ (.ok (Json.obj [])),
   (claim_C9_only_200_is_success 204 "No Content" (by decide)).2
      [("a", ⟨"m", none, some 1⟩)] [(Json.num 1, "a")] (.ok (Json.obj [])) rfl⟩

/-! ## Notification behaviour (claim C2) -/

theorem raw_notification_msg_id {m : Method} {args : List Json}
    {kwargs : List (String × Json)} {freshId : Int} {req : Request}
    (hn : ((kwargs.lookup "_notification").getD (Json.bool false)).truthy = true)
    (h : m.raw args kwargs freshId = .ok req) : req.msg_id = none := by
  simp only [Method.raw, hn, if_true] at h
  split at h
  · exact absurd h (by simp)
  · injection h with h2
    rw [← h2]

/-- C2 counterexample: a notification call (`_notification=True`) against a
server answering 404 raises `TransportError` instead of returning `absent`
— the claim's "regardless of the server's response (any HTTP status)" is
false as stated. -/
theorem claim_C2_counterexample :
    (Method.call ⟨"subtract"⟩ [Json.num 42, Json.num 23]
        [("_notification", Json.bool true)] 1
        (.ok ⟨404, "Not Found", .ok (Json.obj [])⟩)
      = .error (.transportError "HTTP 404 Not Found"
          (.req ⟨"subtract", some (Json.arr [Json.num 42, Json.num 23]), none⟩)))
  ∧ ((Except.error (PyErr.transportError "HTTP 404 Not Found"
        (.req ⟨"subtract", some (Json.arr [Json.num 42, Json.num 23]), none⟩))
      : Except PyErr (Option Json)) ≠ .ok none) :=
  ⟨rfl, fun h => Except.noConfusion h⟩

/-- C2 (amended): a call with the notification flag set builds a request with
no `id` field on the wire, and whenever the HTTP status is 200 the call
returns `absent` without reading or parsing the response body (the result is
the same for every possible body); for a non-200 status `send_message`
raises `TransportError` instead (see the counterexample and C9). -/
theorem claim_C2_notification_absent (m : Method) (args : List Json)
    (kwargs : List (String × Json)) (freshId : Int) (req : Request)
    (hraw : m.raw args (("_notification", Json.bool true) :: kwargs) freshId = .ok req) :
    ((req.as_json_obj).lookup "id" = none)
  ∧ (∀ (reason : String) (body : Except String Json),
      Server.send_message req (.ok ⟨200, reason, body⟩) = .ok none) := by
  have hmsg : req.msg_id = none := by
    refine raw_notification_msg_id ?_ hraw
    simp [List.lookup, Json.truthy]
  constructor
  · cases hp : req.params <;>
      simp [Request.as_json_obj, hmsg, hp, List.lookup]
  · intro reason body
    simp only [Server.send_message]
    rw [if_neg (by simp)]
    rw [if_pos (by simp [Request.response_id, hmsg])]

/-- C2 witness: the notification `s(1, _notification=True)` produces a wire
request without `id`, and a 200 response with an unreadable body still
yields `absent`. -/
theorem claim_C2_witness :
    ((Request.as_json_obj ⟨"s", some (Json.arr [Json.num 1]), none⟩).lookup "id" = none)
  ∧ (Server.send_message ⟨"s", some (Json.arr [Json.num 1]), none⟩
      (.ok ⟨200, "OK", .error "we dont care about this"⟩) = .ok none) :=
  ⟨(claim_C2_notification_absent ⟨"s"⟩ [Json.num 1] [] 9
      ⟨"s", some (Json.arr [Json.num 1]), none⟩ rfl).1,
   (claim_C2_notification_absent ⟨"s"⟩ [Json.num 1] [] 9
      ⟨"s", some (Json.arr [Json.num 1]), none⟩ rfl).2 "OK"
      (.error "we dont care about this")⟩

/-! ## Wire-format omission of `params` and `id` (claim C8) -/

/-- C8 counterexample: a call with no positional and no keyword arguments
produces `params = {}` — the serialized wire request *contains* a `params`
key (with an empty object), so the claim that the key is omitted entirely is
false as stated. -/
theorem claim_C8_counterexample :
    (Method.raw ⟨"foo"⟩ [] [] 1 = .ok ⟨"foo", some (Json.obj []), some 1⟩)
  ∧ ((Request.as_json_obj ⟨"foo", some (Json.obj []), some 1⟩).lookup "params"
      = some (Json.obj []))
  ∧ ((some (Json.obj []) : Option Json) ≠ none) :=
  ⟨rfl, rfl, fun h => Option.noConfusion h⟩

/-- C8 (amended): a call with no positional and no keyword arguments builds
`params` as the empty object `{}` — `args or kwargs` is the empty dict, which
is not `None`, so `as_json_obj` keeps the `params` key with value `{}`
rather than omitting it (omission happens only for requests constructed
directly with `params=None`); the `id` key, by contrast, is omitted for
every notification exactly as claimed. -/
theorem claim_C8_empty_params_present_id_omitted (m : Method) (freshId : Int) :
    (m.raw [] [] freshId = .ok ⟨m.method_name, some (Json.obj []), some freshId⟩)
  ∧ ((Request.as_json_obj ⟨m.method_name, some (Json.obj []), some freshId⟩).lookup "params"
      = some (Json.obj []))
  ∧ (∀ r : Request, r.msg_id = none → (r.as_json_obj).lookup "id" = none) := by
  refine ⟨rfl, rfl, ?_⟩
  intro r hr
  cases hp : r.params <;> simp [Request.as_json_obj, hr, hp, List.lookup]

/-- C8 witness: the zero-argument call `bar()` carries `params: {}` on the
wire, and a notification request has no `id` key. -/
theorem claim_C8_witness :
    (Method.raw ⟨"bar"⟩ [] [] 5 = .ok ⟨"bar", some (Json.obj []), some 5⟩)
  ∧ ((Request.as_json_obj ⟨"n", none, none⟩).lookup "id" = none) :=
  ⟨(claim_C8_empty_params_present_id_omitted ⟨"bar"⟩ 5).1,
   (claim_C8_empty_params_present_id_omitted ⟨"bar"⟩ 5).2.2 ⟨"n", none, none⟩ rfl⟩

/-! ## Batch correlation (claims C10, C4) -/

theorem getItem_id (r : Request) : r.getItem "id" = r.msg_id.map Json.num := by
  cases hp : r.params <;> cases hm : r.msg_id <;>
    simp [Request.getItem, Request.as_json_obj, hp, hm, List.lookup]

theorem lookup_mem_snd {α β : Type} [BEq α] [LawfulBEq α]
    {l : List (α × β)} {k : α} {v : β} (h : l.lookup k = some v) :
    v ∈ l.map Prod.snd :=
  List.mem_map.mpr ⟨(k, v), mem_of_lookup_eq_some h, rfl⟩

theorem route_fold_labels (kw : List (String × Request)) (id_msg : List (Json × String))
    (r_data : List (Json × Json)) :
    ∀ (acc res : List (String × Json)),
      r_data.foldlM (Server.route_one kw id_msg) acc = .ok res →
      ∀ p ∈ res, p.1 ∈ acc.map Prod.fst ∨ p.1 ∈ id_msg.map Prod.snd := by
  induction r_data with
  | nil =>
    intro acc res h p hp
    simp only [List.foldlM_nil] at h
    injection h with h2
    subst h2
    exact Or.inl (List.mem_map.mpr ⟨p, hp, rfl⟩)
  | cons q r_data ih =>
    intro acc res h p hp
    rw [List.foldlM_cons] at h
    cases hq : Server.route_one kw id_msg acc q with
    | error e =>
      rw [hq, except_bind_error] at h
      exact Except.noConfusion h
    | ok acc2 =>
      rw [hq, except_bind_ok] at h
      rcases ih acc2 res h p hp with h1 | h1
      · -- `acc2` is `dictInsert acc label v` for a label drawn from `id_msg`
        cases hlu : id_msg.lookup q.1 with
        | none =>
          simp only [Server.route_one, hlu] at hq
          exact Except.noConfusion hq
        | some label =>
          simp only [Server.route_one, hlu] at hq
          cases hkw : kw.lookup label with
          | none =>
            simp only [hkw] at hq
            exact Except.noConfusion hq
          | some req =>
            simp only [hkw] at hq
            cases hpr : req.parse_response q.2 with
            | error e =>
              simp only [hpr, Except.map] at hq
              exact Except.noConfusion hq
            | ok v =>
              simp only [hpr, Except.map] at hq
              injection hq with hq2
              subst hq2
              rcases List.mem_map.mp h1 with ⟨r, hr, hrp⟩
              rcases dictInsert_keys acc label v r hr with h2 | h2
              · exact Or.inr (by rw [← hrp, h2]; exact lookup_mem_snd hlu)
              · exact Or.inl (by rw [← hrp]; exact h2)
      · exact Or.inr h1

/-- C10: if two entries of one batch carry requests with the same id, the
id-to-label lookup retains only one label for that id, so whenever
`batch_message` returns a mapping at all, that mapping has no entry for the
first label — the first caller's result is silently dropped, and at most one
of the two labels is present. -/
theorem claim_C10_duplicate_ids_drop_label (l1 l2 : String) (r1 r2 : Request) (i : Int)
    (outcome : Except String HttpResponse) (result : List (String × Json))
    (hl : l1 ≠ l2)
    (h1 : r1.msg_id = some i) (h2 : r2.msg_id = some i)
    (hok : Server.batch_message [(l1, r1), (l2, r2)] outcome = .ok result) :
    result.lookup l1 = none
  ∧ ¬((result.lookup l1).isSome = true ∧ (result.lookup l2).isSome = true) := by
  have hids : Server.batch_ids [(l1, r1), (l2, r2)] = .ok [(Json.num i, l2)] := by
    simp [Server.batch_ids, List.foldlM, getItem_id, h1, h2, except_bind_ok, dictInsert,
      List.lookup]
  have hlab : ∀ p ∈ result, p.1 = l2 := by
    cases outcome with
    | error s =>
      simp only [Server.batch_message, hids, except_bind_ok] at hok
      exact Except.noConfusion hok
    | ok resp =>
      obtain ⟨st, reason, body⟩ := resp
      simp only [Server.batch_message, hids, except_bind_ok] at hok
      by_cases hst : st ≠ 200
      · rw [if_pos hst] at hok
        exact Except.noConfusion hok
      · rw [if_neg hst] at hok
        cases body with
        | error s => exact Except.noConfusion hok
        | ok j =>
          cases j with
          | arr elems =>
            have hok2 : (do
                let r_data ← elems.foldlM Server.collect_resp ([] : List (Json × Json))
                r_data.foldlM (Server.route_one [(l1, r1), (l2, r2)] [(Json.num i, l2)]) [])
                = Except.ok result := hok
            cases hfold : elems.foldlM Server.collect_resp ([] : List (Json × Json)) with
            | error e =>
              rw [hfold, except_bind_error] at hok2
              exact Except.noConfusion hok2
            | ok r_data =>
              rw [hfold, except_bind_ok] at hok2
              intro p hp
              rcases route_fold_labels [(l1, r1), (l2, r2)] [(Json.num i, l2)] r_data
                  [] result hok2 p hp with h | h
              · simp at h
              · simpa using h
          | null => exact Except.noConfusion hok
          | bool b => exact Except.noConfusion hok
          | num n => exact Except.noConfusion hok
          | str s => exact Except.noConfusion hok
          | obj fields => exact Except.noConfusion hok
  have hnone : result.lookup l1 = none := by
    refine lookup_eq_none_of_not_mem result l1 ?_
    intro hmem
    rcases List.mem_map.mp hmem with ⟨p, hp, hep⟩
    exact hl (hep ▸ hlab p hp ▸ rfl)
  refine ⟨hnone, ?_⟩
  rw [hnone]
  simp

theorem getItem_id_of_isSome {r : Request} (h : (r.msg_id).isSome = true) :
    r.getItem "id" = some r.wireId := by
  cases hm : r.msg_id with
  | none => rw [hm] at h; simp at h
  | some i => simp [getItem_id, Request.wireId, hm]

theorem not_mem_left_of_nodup_append_cons {α : Type} {l1 l2 : List α} {x : α}
    (h : (l1 ++ x :: l2).Nodup) : x ∉ l1 := by
  rw [List.nodup_append] at h
  intro hx
  exact h.2.2 hx (List.mem_cons_self x l2)

theorem nodup_append_shift {α : Type} {l1 l2 : List α} {x : α}
    (h : (l1 ++ x :: l2).Nodup) : ((l1 ++ [x]) ++ l2).Nodup := by
  have he : (l1 ++ [x]) ++ l2 = l1 ++ x :: l2 := by simp
  rw [he]
  exact h

theorem batch_ids_go (kw : List (String × Request)) :
    ∀ acc : List (Json × String),
      (∀ p ∈ kw, (p.2.msg_id).isSome = true) →
      (acc.map Prod.fst ++ kw.map (fun p => p.2.wireId)).Nodup →
      kw.foldlM (fun d p =>
        match p.2.getItem "id" with
        | none => Except.error PyErr.keyError
        | some i => Except.ok (dictInsert d i p.1)) acc
        = Except.ok (acc ++ kw.map (fun p => (p.2.wireId, p.1))) := by
  induction kw with
  | nil =>
    intro acc _ _
    simp only [List.foldlM_nil, List.map_nil, List.append_nil]
    rfl
  | cons q kw ih =>
    intro acc hids hnd
    rw [List.foldlM_cons]
    have hq : q.2.getItem "id" = some q.2.wireId :=
      getItem_id_of_isSome (hids q (List.mem_cons_self q kw))
    have hnd1 : (acc.map Prod.fst ++ q.2.wireId
        :: kw.map (fun p => p.2.wireId)).Nodup := by
      simpa using hnd
    have hnotmem : q.2.wireId ∉ acc.map Prod.fst :=
      not_mem_left_of_nodup_append_cons hnd1
    have step : (match q.2.getItem "id" with
        | none => (Except.error PyErr.keyError : Except PyErr (List (Json × String)))
        | some i => Except.ok (dictInsert acc i q.1))
        = Except.ok (acc ++ [(q.2.wireId, q.1)]) := by
      simp only [hq]
      rw [dictInsert_of_not_mem _ _ _ hnotmem]
    rw [step, except_bind_ok]
    have hnd2 : ((acc ++ [(q.2.wireId, q.1)]).map Prod.fst
        ++ kw.map (fun p => p.2.wireId)).Nodup := by
      rw [List.map_append]
      simpa using nodup_append_shift hnd1
    have hrec := ih (acc ++ [(q.2.wireId, q.1)])
      (fun p hp => hids p (List.mem_cons_of_mem _ hp)) hnd2
    rw [hrec]
    simp

theorem batch_ids_formula (kw : List (String × Request))
    (hids : ∀ p ∈ kw, (p.2.msg_id).isSome = true)
    (hwire : (kw.map (fun p => p.2.wireId)).Nodup) :
    Server.batch_ids kw = .ok (kw.map (fun p => (p.2.wireId, p.1))) := by
  unfold Server.batch_ids
  have := batch_ids_go kw [] hids (by simpa using hwire)
  simpa using this

theorem collect_go (elems : List Json) :
    ∀ acc : List (Json × Json),
      (∀ e ∈ elems, ∃ j, e.idField = some j) →
      (acc.map Prod.fst ++ elems.map (fun e => e.idField.getD Json.null)).Nodup →
      elems.foldlM Server.collect_resp acc
        = Except.ok (acc ++ elems.map (fun e => (e.idField.getD Json.null, e))) := by
  induction elems with
  | nil =>
    intro acc _ _
    simp only [List.foldlM_nil, List.map_nil, List.append_nil]
    rfl
  | cons e elems ih =>
    intro acc hids hnd
    rw [List.foldlM_cons]
    rcases hids e (List.mem_cons_self e elems) with ⟨j, hj⟩
    cases e with
    | null => simp [Json.idField] at hj
    | bool b => simp [Json.idField] at hj
    | num n => simp [Json.idField] at hj
    | str s => simp [Json.idField] at hj
    | arr xs => simp [Json.idField] at hj
    | obj fields =>
      have hjf : fields.lookup "id" = some j := by
        simpa [Json.idField] using hj
      have hkey : (Json.obj fields).idField.getD Json.null = j := by
        simp [Json.idField, hjf]
      have hnd1 : (acc.map Prod.fst ++ j
          :: elems.map (fun e => e.idField.getD Json.null)).Nodup := by
        simp only [List.map_cons] at hnd
        rw [hkey] at hnd
        exact hnd
      have hnotmem : j ∉ acc.map Prod.fst :=
        not_mem_left_of_nodup_append_cons hnd1
      have step : Server.collect_resp acc (Json.obj fields)
          = Except.ok (acc ++ [(j, Json.obj fields)]) := by
        simp only [Server.collect_resp, hjf]
        rw [dictInsert_of_not_mem _ _ _ hnotmem]
      rw [step, except_bind_ok]
      have hnd2 : ((acc ++ [(j, Json.obj fields)]).map Prod.fst
          ++ elems.map (fun e => e.idField.getD Json.null)).Nodup := by
        rw [List.map_append]
        simpa using nodup_append_shift hnd1
      have hrec := ih (acc ++ [(j, Json.obj fields)])
        (fun e he => hids e (List.mem_cons_of_mem _ he)) hnd2
      rw [hrec]
      simp [hkey]

theorem route_go (kw : List (String × Request)) (id_msg : List (Json × String))
    (pairs : List (Json × Json)) :
    ∀ acc : List (String × Json),
      (∀ q ∈ pairs, ∃ label req v, id_msg.lookup q.1 = some label
         ∧ kw.lookup label = some req ∧ req.parse_response q.2 = .ok v) →
      (acc.map Prod.fst ++ pairs.map (fun q => (routeEntry kw id_msg q).1)).Nodup →
      pairs.foldlM (Server.route_one kw id_msg) acc
        = Except.ok (acc ++ pairs.map (routeEntry kw id_msg)) := by
  induction pairs with
  | nil =>
    intro acc _ _
    simp only [List.foldlM_nil, List.map_nil, List.append_nil]
    rfl
  | cons q pairs ih =>
    intro acc hsucc hnd
    rw [List.foldlM_cons]
    rcases hsucc q (List.mem_cons_self q pairs) with ⟨label, req, v, hlu, hkw, hpr⟩
    have hentry : routeEntry kw id_msg q = (label, v) := by
      simp only [routeEntry, hlu, hkw, hpr]
    have hnd1 : (acc.map Prod.fst ++ label
        :: pairs.map (fun q => (routeEntry kw id_msg q).1)).Nodup := by
      simp only [List.map_cons] at hnd
      rw [hentry] at hnd
      exact hnd
    have hnotmem : label ∉ acc.map Prod.fst :=
      not_mem_left_of_nodup_append_cons hnd1
    have hstep : Server.route_one kw id_msg acc q
        = Except.ok (acc ++ [(label, v)]) := by
      simp only [Server.route_one, hlu, hkw, hpr, Except.map]
      rw [dictInsert_of_not_mem _ _ _ hnotmem]
    rw [hstep, except_bind_ok]
    have hnd2 : ((acc ++ [(label, v)]).map Prod.fst
        ++ pairs.map (fun q => (routeEntry kw id_msg q).1)).Nodup := by
      rw [List.map_append]
      simpa using nodup_append_shift hnd1
    have hrec := ih (acc ++ [(label, v)])
      (fun r hr => hsucc r (List.mem_cons_of_mem _ hr)) hnd2
    rw [hrec, List.map_cons, hentry]
    simp

/-- C4: for every batch of labeled, non-notification requests with
pairwise-distinct ids and pairwise-distinct labels, if the HTTP exchange
returns status 200 with a JSON-array body holding, in any order (`elems` is
an arbitrary permutation), exactly one response element per request id (the
element for label `l` is `f l`, whose `id` field equals that request's wire
id), and each element parses successfully against its request, then
`batch_message` returns a mapping that assigns to each caller label the
parsed result of the response element whose id equals that label's request
id — correlation is by id, never by position. -/
theorem claim_C4_batch_correlates_by_id
    (kw : List (String × Request)) (f : String → Json) (elems : List Json) (reason : String)
    (hlab : (kw.map Prod.fst).Nodup)
    (hids : ∀ p ∈ kw, (p.2.msg_id).isSome = true)
    (hnodup : (kw.map (fun p => p.2.msg_id)).Nodup)
    (hform : ∀ p ∈ kw, (f p.1).idField = some p.2.wireId)
    (hperm : elems.Perm (kw.map (fun p => f p.1)))
    (hparse : ∀ p ∈ kw, ∃ v, p.2.parse_response (f p.1) = .ok v) :
    ∃ result,
      Server.batch_message kw (.ok ⟨200, reason, .ok (Json.arr elems)⟩) = .ok result
      ∧ ∀ p ∈ kw, ∀ v, p.2.parse_response (f p.1) = .ok v →
          result.lookup p.1 = some v := by
  have hwire : (kw.map (fun p => p.2.wireId)).Nodup := by
    have hxy : kw.map (fun p => p.2.wireId)
        = (kw.map (fun p => p.2.msg_id)).map
            (fun o => (o.map Json.num).getD Json.null) := by
      rw [List.map_map]
      rfl
    rw [hxy]
    refine hnodup.map ?_
    intro a b hab
    cases a <;> cases b <;> simp [Option.map, Option.getD] at hab ⊢
    exact hab
  have hids_msg : Server.batch_ids kw = .ok (kw.map (fun p => (p.2.wireId, p.1))) :=
    batch_ids_formula kw hids hwire
  have hid_msg_keys : ((kw.map (fun p => (p.2.wireId, p.1))).map Prod.fst).Nodup := by
    rw [List.map_map]
    exact hwire
  have helem_shape : ∀ e ∈ elems, ∃ p, p ∈ kw ∧ e = f p.1 := by
    intro e he
    rcases List.mem_map.mp (hperm.mem_iff.mp he) with ⟨p, hp, hfe⟩
    exact ⟨p, hp, hfe.symm⟩
  have helem_id : ∀ e ∈ elems, ∃ j, e.idField = some j := by
    intro e he
    rcases helem_shape e he with ⟨p, hp, rfl⟩
    exact ⟨p.2.wireId, hform p hp⟩
  have hkeyfun : ∀ p ∈ kw, (f p.1).idField.getD Json.null = p.2.wireId := by
    intro p hp
    rw [hform p hp]
    rfl
  have hkeys_perm : (elems.map (fun e => e.idField.getD Json.null)).Perm
      (kw.map (fun p => p.2.wireId)) := by
    have h1 := hperm.map (fun e => e.idField.getD Json.null)
    rw [List.map_map] at h1
    refine h1.trans ?_
    rw [List.map_congr_left (fun p hp => ?_)]
    exact hkeyfun p hp
  have hkeys_nodup : (elems.map (fun e => e.idField.getD Json.null)).Nodup :=
    hkeys_perm.nodup_iff.mpr hwire
  have hr_data : elems.foldlM Server.collect_resp ([] : List (Json × Json))
      = .ok (elems.map (fun e => (e.idField.getD Json.null, e))) := by
    have := collect_go elems [] helem_id (by simpa using hkeys_nodup)
    simpa using this
  have hlu_of_mem : ∀ p ∈ kw,
      (kw.map (fun p => (p.2.wireId, p.1))).lookup p.2.wireId = some p.1 := by
    intro p hp
    exact lookup_eq_some_of_mem_nodup hid_msg_keys (List.mem_map.mpr ⟨p, hp, rfl⟩)
  have hsucc : ∀ q ∈ elems.map (fun e => (e.idField.getD Json.null, e)),
      ∃ label req v,
        (kw.map (fun p => (p.2.wireId, p.1))).lookup q.1 = some label
        ∧ kw.lookup label = some req ∧ req.parse_response q.2 = .ok v := by
    intro q hq
    rcases List.mem_map.mp hq with ⟨e, he, rfl⟩
    rcases helem_shape e he with ⟨p, hp, rfl⟩
    rcases hparse p hp with ⟨v, hv⟩
    refine ⟨p.1, p.2, v, ?_, ?_, hv⟩
    · rw [hkeyfun p hp]
      exact hlu_of_mem p hp
    · exact lookup_eq_some_of_mem_nodup hlab hp
  have hentry : ∀ p ∈ kw, ∀ v, p.2.parse_response (f p.1) = .ok v →
      routeEntry kw (kw.map (fun p => (p.2.wireId, p.1)))
          ((f p.1).idField.getD Json.null, f p.1) = (p.1, v) := by
    intro p hp v hv
    have hl : (kw.map (fun p => (p.2.wireId, p.1))).lookup
        ((f p.1).idField.getD Json.null) = some p.1 := by
      rw [hkeyfun p hp]
      exact hlu_of_mem p hp
    have hk : kw.lookup p.1 = some p.2 := lookup_eq_some_of_mem_nodup hlab hp
    simp only [routeEntry, hl, hk, hv]
  have hlabelfun : ∀ p ∈ kw,
      (routeEntry kw (kw.map (fun p => (p.2.wireId, p.1)))
          ((f p.1).idField.getD Json.null, f p.1)).1 = p.1 := by
    intro p hp
    rcases hparse p hp with ⟨v, hv⟩
    rw [hentry p hp v hv]
  have hlabels : ((elems.map (fun e => (e.idField.getD Json.null, e))).map
      (fun q => (routeEntry kw (kw.map (fun p => (p.2.wireId, p.1))) q).1)).Nodup := by
    rw [List.map_map]
    have h2 := hperm.map (fun e =>
      (routeEntry kw (kw.map (fun p => (p.2.wireId, p.1)))
        (e.idField.getD Json.null, e)).1)
    rw [List.map_map] at h2
    refine (List.Perm.nodup_iff ?_).mpr hlab
    refine h2.trans ?_
    rw [List.map_congr_left (fun p hp => ?_)]
    exact hlabelfun p hp
  have hroute : (elems.map (fun e => (e.idField.getD Json.null, e))).foldlM
      (Server.route_one kw (kw.map (fun p => (p.2.wireId, p.1)))) []
      = .ok ((elems.map (fun e => (e.idField.getD Json.null, e))).map
          (routeEntry kw (kw.map (fun p => (p.2.wireId, p.1))))) := by
    have := route_go kw (kw.map (fun p => (p.2.wireId, p.1)))
      (elems.map (fun e => (e.idField.getD Json.null, e))) [] hsucc
      (by simpa using hlabels)
    simpa using this
  refine ⟨(elems.map (fun e => (e.idField.getD Json.null, e))).map
      (routeEntry kw (kw.map (fun p => (p.2.wireId, p.1)))), ?_, ?_⟩
  · simp only [Server.batch_message, hids_msg, except_bind_ok]
    rw [if_neg (by simp)]
    have hok2 : (do
        let r_data ← elems.foldlM Server.collect_resp ([] : List (Json × Json))
        r_data.foldlM (Server.route_one kw (kw.map (fun p => (p.2.wireId, p.1)))) [])
        = Except.ok ((elems.map (fun e => (e.idField.getD Json.null, e))).map
            (routeEntry kw (kw.map (fun p => (p.2.wireId, p.1))))) := by
      rw [hr_data, except_bind_ok]
      exact hroute
    exact hok2
  · intro p hp v hv
    have he : f p.1 ∈ elems := hperm.mem_iff.mpr (List.mem_map.mpr ⟨p, hp, rfl⟩)
    have hq : ((f p.1).idField.getD Json.null, f p.1)
        ∈ elems.map (fun e => (e.idField.getD Json.null, e)) :=
      List.mem_map.mpr ⟨f p.1, he, rfl⟩
    have hmem : (p.1, v) ∈ (elems.map (fun e => (e.idField.getD Json.null, e))).map
        (routeEntry kw (kw.map (fun p => (p.2.wireId, p.1)))) := by
      have hmem0 : routeEntry kw (kw.map (fun p => (p.2.wireId, p.1)))
          ((f p.1).idField.getD Json.null, f p.1)
          ∈ (elems.map (fun e => (e.idField.getD Json.null, e))).map
              (routeEntry kw (kw.map (fun p => (p.2.wireId, p.1)))) :=
        List.mem_map.mpr ⟨_, hq, rfl⟩
      rw [hentry p hp v hv] at hmem0
      exact hmem0
    refine lookup_eq_some_of_mem_nodup ?_ hmem
    simpa [List.map_map, Function.comp] using hlabels

/-- C4 witness: two labeled calls with ids 10 and 20, answered in reversed
id order, still route result "A" to label `first` and "B" to `second`. -/
theorem claim_C4_witness :
    ∃ result,
      Server.batch_message
        [("first", ⟨"a", some (Json.arr [Json.num 1]), some 10⟩),
         ("second", ⟨"b", some (Json.arr [Json.num 2]), some 20⟩)]
        (.ok ⟨200, "OK", .ok (Json.arr
          [Json.obj [("jsonrpc", Json.str "2.0"), ("result", Json.str "B"),
             ("id", Json.num 20)],
           Json.obj [("jsonrpc", Json.str "2.0"), ("result", Json.str "A"),
             ("id", Json.num 10)]])⟩)
        = .ok result
      ∧ result.lookup "first" = some (Json.str "A")
      ∧ result.lookup "second" = some (Json.str "B") := by
  obtain ⟨result, hres, hall⟩ := claim_C4_batch_correlates_by_id
    [("first", ⟨"a", some (Json.arr [Json.num 1]), some 10⟩),
     ("second", ⟨"b", some (Json.arr [Json.num 2]), some 20⟩)]
    (fun lab => if lab = "first"
      then Json.obj [("jsonrpc", Json.str "2.0"), ("result", Json.str "A"),
        ("id", Json.num 10)]
      else Json.obj [("jsonrpc", Json.str "2.0"), ("result", Json.str "B"),
        ("id", Json.num 20)])
    [Json.obj [("jsonrpc", Json.str "2.0"), ("result", Json.str "B"), ("id", Json.num 20)],
     Json.obj [("jsonrpc", Json.str "2.0"), ("result", Json.str "A"), ("id", Json.num 10)]]
    "OK"
    (by decide) (by decide) (by decide) (by decide) (by decide)
    (by
      intro p hp
      rcases List.mem_cons.mp hp with h | h
      · subst h
        exact ⟨Json.str "A", rfl⟩
      · rcases List.mem_cons.mp h with h2 | h2
        · subst h2
          exact ⟨Json.str "B", rfl⟩
        · simp at h2)
  refine ⟨result, hres, ?_, ?_⟩
  · exact hall ("first", ⟨"a", some (Json.arr [Json.num 1]), some 10⟩)
      (List.mem_cons_self _ _) (Json.str "A") rfl
  · exact hall ("second", ⟨"b", some (Json.arr [Json.num 2]), some 20⟩)
      (List.mem_cons_of_mem _ (List.mem_cons_self _ _)) (Json.str "B") rfl

/-- C10 witness: a two-call batch whose requests share id 10 returns a
mapping with only the second label; the first caller's result is dropped. -/
theorem claim_C10_witness :
    (List.lookup "first" [("second", Json.str "A")] = none)
  ∧ ¬((List.lookup "first" [("second", Json.str "A")]).isSome = true
      ∧ (List.lookup "second" [("second", Json.str "A")]).isSome = true) :=
  claim_C10_duplicate_ids_drop_label "first" "second"
    ⟨"a", some (Json.arr [Json.num 1]), some 10⟩
    ⟨"b", some (Json.arr [Json.num 2]), some 10⟩ 10
    (.ok ⟨200, "OK", .ok (Json.arr
      [Json.obj [("jsonrpc", Json.str "2.0"), ("result", Json.str "A"), ("id", Json.num 10)]])⟩)
    [("second", Json.str "A")]
    (by decide) rfl rfl rfl

end JsonrpcAsync
